import Mathlib

/-!
Verification of the Korp export backend (korpexport package).

This file gives a shallow embedding, in Lean 4, of the parts of the
`korpexport` Python package relevant to the query-result accessors
(`korpexport/queryresult.py`), the formatter machinery
(`korpexport/formatter.py`), the delimited-format post-processing
(`korpexport/format/delimited.py`) and the joint-format class
construction (`korpexport/exporter.py`), together with theorems about
them.

Python dictionaries are modelled as association lists or as structures
with `Option`-typed fields (a missing key is `none`); Python strings
are modelled as Lean `String` or, where character-level processing
matters, as `List Char`.  The code base is Python 2 (`unicode`,
`itervalues` occur in it), so `None` compares less than every integer.
-/

namespace Korpexport

/-! ## Python primitives

Models of the Python built-in string and list operations used by the
source: `str.partition`, `str.split` (with a one-character separator),
`str.replace`, `str.join`, and list slicing `xs[a:b]`. -/

/-- Model of Python `s.partition(c)` for a one-character separator `c`
on a string given as a character list: returns the part before the
first occurrence of `c`, whether `c` occurred, and the part after. -/
def pyPartitionChar (c : Char) : List Char → List Char × Bool × List Char
  | [] => ([], false, [])
  | x :: rest =>
    if x = c then ([], true, rest)
    else
      let r := pyPartitionChar c rest
      (x :: r.1, r.2.1, r.2.2)

/-- Model of Python `s.split(c)` for a one-character separator:
`"".split(c)` is `[""]`, and every occurrence of `c` separates
(possibly empty) chunks. -/
def pySplitChar (c : Char) : List Char → List (List Char)
  | [] => [[]]
  | x :: rest =>
    if x = c then [] :: pySplitChar c rest
    else
      match pySplitChar c rest with
      | [] => [[x]]
      | g :: gs => (x :: g) :: gs

/-- Helper for `pyReplace`: scan the text left to right; `skip` counts
characters still to be consumed as part of an already-replaced
occurrence of the pattern. -/
def pyReplaceGo (pat rep : List Char) (skip : Nat) : List Char → List Char
  | [] => []
  | c :: rest =>
    match skip with
    | n + 1 => pyReplaceGo pat rep n rest
    | 0 =>
      if pat.isPrefixOf (c :: rest) then
        rep ++ pyReplaceGo pat rep (pat.length - 1) rest
      else
        c :: pyReplaceGo pat rep 0 rest

/-- Model of Python `s.replace(pat, rep)`: replace every non-overlapping
occurrence of `pat` in `s` by `rep`, scanning left to right.  For the
empty pattern, Python inserts `rep` at every character boundary
(`"ab".replace("", "X") = "XaXbX"`). -/
def pyReplace (pat rep : List Char) (s : List Char) : List Char :=
  match pat with
  | [] => rep ++ s.flatMap (fun c => c :: rep)
  | _ :: _ => pyReplaceGo pat rep 0 s

/-- Model of Python `sep.join(chunks)`. -/
def joinSep (sep : List Char) : List (List Char) → List Char
  | [] => []
  | [x] => x
  | x :: y :: rest => x ++ sep ++ joinSep sep (y :: rest)

/-- Normalize one endpoint of a Python slice `xs[a:b]` for a list of
length `n`: a negative index counts from the end, and indices are
clamped to `[0, n]`. -/
def pySliceIndex (n : Nat) (i : Int) : Nat :=
  if i < 0 then (max (i + n) 0).toNat else min i.toNat n

/-- Model of Python list slicing `xs[start:stop]` where either bound
may be `None` (modelled as `none`). -/
def pySlice (xs : List α) (start? stop? : Option Int) : List α :=
  let n := xs.length
  let s := match start? with
    | none => 0
    | some i => pySliceIndex n i
  let e := match stop? with
    | none => n
    | some i => pySliceIndex n i
  (xs.drop s).take (e - s)

/-- Truthiness of a Python value that is either `None` or an `int`:
`None` and `0` are falsy. -/
def optIntTruthy : Option Int → Bool
  | none => false
  | some n => n ≠ 0

/-! ## Data model

The Korp query result is a JSON-like dictionary.  We model the parts
the korpexport code accesses: a result has an optional `kwic` list of
sentences; a sentence has a token list, an optional `match` record and
an optional `corpus` id; a token has its attribute dictionary and an
optional `structs` entry with optional `open` and `close` lists. -/

/-- The `structs` entry of a token: the CWB structural attributes
opening immediately before and closing immediately after the token
(dict keys `open` and `close`, each optional). -/
structure TokenStructs where
  openStructs : Option (List String)
  closeStructs : Option (List String)
  deriving Repr, DecidableEq

/-- A token of a sentence: its positional attributes (`word` among
them) as an association list, and the optional `structs` entry. -/
structure Token where
  attrs : List (String × String)
  structs : Option TokenStructs
  deriving Repr, DecidableEq

/-- The `match` record of a sentence; each of the fields `start`,
`end` (here `stop`) and `position` may be absent. -/
structure MatchRec where
  start? : Option Int
  stop? : Option Int
  position? : Option Int
  deriving Repr, DecidableEq

/-- A Python dict is truthy iff it is non-empty; for a match record
this means at least one field is present. -/
def MatchRec.truthy (m : MatchRec) : Bool :=
  m.start?.isSome || m.stop?.isSome || m.position?.isSome

/-- A sentence of a query result: its tokens, the optional match
record and the optional corpus id. -/
structure Sentence where
  tokens : List Token
  matchRec : Option MatchRec
  corpus : Option String
  deriving Repr, DecidableEq

/-- A Korp query result: the optional `kwic` sentence list. -/
structure QueryResult where
  kwic : Option (List Sentence)
  deriving Repr, DecidableEq

/-! ## korpexport/queryresult.py -/

/-- `get_sentences`: `query_result.get("kwic", [])`. -/
def get_sentences (q : QueryResult) : List Sentence :=
  q.kwic.getD []

/-- `get_sentence_match`: `sentence.get("match", {})`. -/
def get_sentence_match (s : Sentence) : MatchRec :=
  s.matchRec.getD ⟨none, none, none⟩

/-- `get_sentence_match_info(sentence, "start")`:
`get_sentence_match(sentence).get("start", -1)`. -/
def get_sentence_match_start (s : Sentence) : Int :=
  (get_sentence_match s).start?.getD (-1)

/-- `get_sentence_match_info(sentence, "end")`:
`get_sentence_match(sentence).get("end", -1)`. -/
def get_sentence_match_end (s : Sentence) : Int :=
  (get_sentence_match s).stop?.getD (-1)

/-- `get_sentence_tokens_base`: return `sentence["tokens"][start:end]`
when each bound is `None` or non-negative, and `[]` otherwise.  (The
code tests `start >= 0 or start is None`; under Python 2, `None >= 0`
is `False`, so the test means exactly this.) -/
def get_sentence_tokens_base (s : Sentence) (start? stop? : Option Int) :
    List Token :=
  if (start?.isNone || start?.getD 0 ≥ 0)
      && (stop?.isNone || stop?.getD 0 ≥ 0) then
    pySlice s.tokens start? stop?
  else
    []

/-- `get_sentence_tokens_all`. -/
def get_sentence_tokens_all (s : Sentence) : List Token :=
  get_sentence_tokens_base s none none

/-- `get_sentence_tokens_match`: if the match record is truthy, slice
by its (optional) `start` and `end` fields; otherwise `[]`. -/
def get_sentence_tokens_match (s : Sentence) : List Token :=
  let m := get_sentence_match s
  if m.truthy then get_sentence_tokens_base s m.start? m.stop?
  else []

/-- `get_sentence_tokens_left_context`: slice up to the match start;
a negative match start (absent `start`) becomes `None`. -/
def get_sentence_tokens_left_context (s : Sentence) : List Token :=
  let matchStart := get_sentence_match_start s
  let matchStart? : Option Int := if matchStart < 0 then none else some matchStart
  get_sentence_tokens_base s none matchStart?

/-- `get_sentence_tokens_right_context`: slice from the match end. -/
def get_sentence_tokens_right_context (s : Sentence) : List Token :=
  get_sentence_tokens_base s (some (get_sentence_match_end s)) none

/-- The token-slice kinds dispatched by `get_sentence_tokens`. -/
inductive TokensType where
  | all
  | matchT
  | leftContext
  | rightContext
  deriving Repr, DecidableEq

/-- `get_sentence_tokens(sentence, type_)`: dispatch on the kind. -/
def get_sentence_tokens (s : Sentence) : TokensType → List Token
  | .all => get_sentence_tokens_all s
  | .matchT => get_sentence_tokens_match s
  | .leftContext => get_sentence_tokens_left_context s
  | .rightContext => get_sentence_tokens_right_context s

/-- The parsed form of one raw CWB structural-attribute entry, as
produced inside the loop of `_combine_struct_attrs`: element name
(part before the first underscore), attribute name (part after it)
and, for an `open` entry with a space, the attribute value. -/
def parseStructEntry (isOpen : Bool) (struct : String) :
    String × String × Option String :=
  let (struct1, attrval?) :=
    if isOpen then
      let (a, sp, b) := pyPartitionChar ' ' struct.data
      (a, if sp then some (String.mk b) else none)
    else
      (struct.data, none)
  let (elem, _, attrname) := pyPartitionChar '_' struct1
  (String.mk elem, String.mk attrname, attrval?)

/-- Append `x` at the end of the accumulated structure list when the
last accumulated element name differs (the
`if not result_structs or result_structs[-1][0] != struct` test). -/
def needNewGroup (acc : List (String × List (String × String)))
    (elem : String) : Bool :=
  match acc.getLast? with
  | none => true
  | some g => g.1 ≠ elem

/-- Replace the last element of a list by `f` of it (the effect of
`result_structs[-1][1].append(...)`). -/
def updateLast (f : α → α) : List α → List α
  | [] => []
  | [x] => [f x]
  | x :: y :: rest => x :: updateLast f (y :: rest)

/-- One iteration of the loop of `_combine_struct_attrs`, acting on an
already parsed entry. -/
def combineParsedStep (acc : List (String × List (String × String)))
    (entry : String × String × Option String) :
    List (String × List (String × String)) :=
  let (elem, attrname, attrval?) := entry
  let acc := if needNewGroup acc elem then acc ++ [(elem, [])] else acc
  match attrval? with
  | none => acc
  | some v => updateLast (fun g => (g.1, g.2 ++ [(attrname, v)])) acc

/-- One iteration of the loop of `_combine_struct_attrs`. -/
def combineStructStep (isOpen : Bool)
    (acc : List (String × List (String × String))) (struct : String) :
    List (String × List (String × String)) :=
  combineParsedStep acc (parseStructEntry isOpen struct)

/-- `_combine_struct_attrs(structs, struct_type)`: represent each XML
element only once, with the list of its attribute name-value pairs.
`isOpen` is `struct_type == "open"`. -/
def combine_struct_attrs (structs : List String) (isOpen : Bool) :
    List (String × List (String × String)) :=
  structs.foldl (combineStructStep isOpen) []

/-- `_get_token_structs(token, struct_type)` without attribute
combination: `token["structs"][struct_type]`, with a `KeyError`
(missing `structs` or missing `struct_type` key) giving `[]`. -/
def get_token_structs_raw (t : Token) (isOpen : Bool) : List String :=
  match t.structs with
  | none => []
  | some st => (if isOpen then st.openStructs else st.closeStructs).getD []

/-- `get_token_structs_open(token, combine_attrs=False)`. -/
def get_token_structs_open_raw (t : Token) : List String :=
  get_token_structs_raw t true

/-- `get_token_structs_open(token, combine_attrs=True)`. -/
def get_token_structs_open_combined (t : Token) :
    List (String × List (String × String)) :=
  combine_struct_attrs (get_token_structs_raw t true) true

/-- `get_token_structs_close(token, combine_attrs=False)`. -/
def get_token_structs_close_raw (t : Token) : List String :=
  get_token_structs_raw t false

/-- `get_token_structs_close(token, combine_attrs=True)`. -/
def get_token_structs_close_combined (t : Token) :
    List (String × List (String × String)) :=
  combine_struct_attrs (get_token_structs_raw t false) false

/-- `is_parallel_corpus(query_result)`:
`"|" in query_result["kwic"][0]["corpus"]`, with `KeyError` and
`IndexError` giving `False`. -/
def is_parallel_corpus (q : QueryResult) : Bool :=
  match q.kwic with
  | none => false
  | some [] => false
  | some (s :: _) =>
    match s.corpus with
    | none => false
    | some c => c.data.contains '|'

/-- The keys of a token dict: its attribute names, plus `structs` when
the token carries structural attributes. -/
def tokenKeys (t : Token) : List String :=
  t.attrs.map Prod.fst ++ (if t.structs.isSome then ["structs"] else [])

/-- `get_occurring_attrnames(query_result, keys, "tokens")`: the names
in `keys` that occur as a key of some token of some sentence of the
result (`struct_name = "tokens"`, the only instantiation the claims
need: the value of each sentence's `tokens` key is a list, so its
items' keys are unioned). -/
def get_occurring_attrnames (q : QueryResult) (keys : List String) :
    List String :=
  let occurring :=
    (get_sentences q).flatMap (fun s => s.tokens.flatMap tokenKeys)
  keys.filter (fun k => k ∈ occurring)

/-! ## korpexport/formatter.py: match markers

`KorpExportFormatter._format_sentence` passes `match_start` and
`match_end` keyword arguments to `_format_token` (via
`_format_tokens`/`_format_list`, which adds `token_num`), and
`_format_token` computes the `match_open`, `match_close` and
`match_marker` format values from them.  We embed exactly that marker
computation; the rest of the token rendering (template filling) is
orthogonal to the markers. -/

/-- The three match-marking option strings (`match_open`,
`match_close`, `match_marker` in `_option_defaults`, default empty). -/
structure MarkOpts where
  match_open : String
  match_close : String
  match_marker : String
  deriving Repr, DecidableEq

/-- The test `self._opts["match_open"] or self._opts["match_close"] or
self._opts["match_marker"]` in `_format_sentence`. -/
def MarkOpts.anyNonEmpty (o : MarkOpts) : Bool :=
  o.match_open ≠ "" || o.match_close ≠ "" || o.match_marker ≠ ""

/-- The `match_start` and `match_end` keyword arguments that
`_format_sentence` sets for a given tokens type: for the full token
list they are the sentence's match-record `start` and `end` (via
`get_sentence_match_info`), for the match slice `0` and the number of
match tokens, and for the context slices they are not set.  They are
only set at all when some match-marking option is non-empty. -/
def matchKwargs (o : MarkOpts) (s : Sentence) (ttype : TokensType)
    (tokens : List Token) : Option Int × Option Int :=
  if o.anyNonEmpty then
    match ttype with
    | .all => (some (get_sentence_match_start s),
               some (get_sentence_match_end s))
    | .matchT => (some 0, some (tokens.length : Int))
    | _ => (none, none)
  else
    (none, none)

/-- The marker computation in `_format_token` (lines 1219-1229): if
`match_end` is truthy, the token numbered `match_start` gets
`match_open`, the token numbered `match_end - 1` gets `match_close`
and tokens with `match_start <= token_num < match_end` get
`match_marker`; otherwise all three are empty.  `token_num == None` is
`False` and `None <= token_num` is `True` under Python 2. -/
def tokenMatchMarks (o : MarkOpts) (matchStart? matchEnd? : Option Int)
    (tokenNum : Int) : String × String × String :=
  if optIntTruthy matchEnd? then
    let mopen := if matchStart?.elim false (fun ms => tokenNum == ms)
      then o.match_open else ""
    let mclose := if matchEnd?.elim false (fun me => tokenNum == me - 1)
      then o.match_close else ""
    let mmark := if matchStart?.elim true (fun ms => ms ≤ tokenNum)
        && matchEnd?.elim false (fun me => tokenNum < me)
      then o.match_marker else ""
    (mopen, mclose, mmark)
  else
    ("", "", "")

/-- The sequence of marker triples attached to the tokens rendered for
one tokens type of one sentence: entry `i` holds the `match_open`,
`match_close` and `match_marker` values substituted into the token
format of the token numbered `i`. -/
def sentenceTokensMarks (o : MarkOpts) (s : Sentence)
    (ttype : TokensType) : List (String × String × String) :=
  let tokens := get_sentence_tokens s ttype
  let kw := matchKwargs o s ttype tokens
  (List.range tokens.length).map
    (fun i => tokenMatchMarks o kw.1 kw.2 (i : Int))

/-! ## korpexport/exporter.py and `_get_combined_values`

`KorpExporter._get_formatter_class`, given several format names,
reverses the list and builds a class with the found formatter classes
as bases in that reversed order; `_get_combined_values` then walks the
MRO of the constructed class in reverse, `dict.update`-ing each
class's `_option_defaults`, so that classes earlier in the MRO
override those later.  We model a class by its `_option_defaults`
dict; the named format classes share their superclass chain (as all
the delimited formatters do), so the MRO of the constructed class is
the constructed class itself (no defaults of its own), the named
formats' classes in reversed named order, then the shared chain. -/

/-- An option dictionary (`_option_defaults`), modelled as an
association list in which an earlier entry shadows a later one with
the same key. -/
abbrev OptDict := List (String × String)

/-- Dictionary lookup: the first (shadowing) entry for the key. -/
def dictGet (d : OptDict) (k : String) : Option String :=
  (d.find? (fun p => p.1 = k)).map Prod.snd

/-- Python `d.update(overlay)`: every key of `overlay` now maps to its
`overlay` value, other keys keep their `d` value.  With the
earlier-shadows-later representation this is prepending; the model is
lookup-equivalent to Python's dict (which the option machinery only
ever observes through lookups). -/
def pyUpdate (d overlay : OptDict) : OptDict :=
  overlay ++ d

/-- `_get_combined_values`: starting from `{}`, update with the
dict of each class of the MRO in reversed MRO order. -/
def getCombinedValues (mroDicts : List OptDict) : OptDict :=
  mroDicts.reverse.foldl pyUpdate []

/-- The MRO of the formatter class that `_get_formatter_class` builds
for the named formats (their `_option_defaults` given in the named
order `fmts`), over a shared superclass chain `base`: the constructed
class contributes no defaults and its bases are the named formats'
classes in reversed named order. -/
def formatterClassMRO (fmts base : List OptDict) : List OptDict :=
  [] :: fmts.reverse ++ base

/-- The effective combined `_option_defaults` for a joint-format
request naming the formats `fmts` (in request order) whose classes sit
on the shared chain `base`. -/
def combinedOptionDefaults (fmts base : List OptDict) : OptDict :=
  getCombinedValues (formatterClassMRO fmts base)

/-! ## The string formatters of korpexport/formatter.py

`_PartialStringFormatter` renders a Python format template, replacing
a reference to a missing field by the configured `missing` string (its
`get_field` catches `KeyError`/`AttributeError` and `format_field`
renders the resulting `None` as `missing`).  `_LazyStringFormatter`
calls a format argument that is a function (a zero-argument
computation) to obtain its value, and `_LazyPartialStringFormatter`
combines both.  We model the template syntax handled by the Python
`string.Formatter.parse` machinery for the shapes used in this code
base: literal text with doubled-brace escapes and `{name}` /
`{name!conv}` / `{name:spec}` fields with plain field names (attribute
and index access on field values is not modelled, and a format spec
containing nested braces is treated as ill-formed). -/

/-- The opening brace character. -/
def braceOpen : Char := Char.ofNat 123

/-- The closing brace character. -/
def braceClose : Char := Char.ofNat 125

/-- A parsed template item: literal text or a field reference. -/
inductive TItem where
  | lit : String → TItem
  | field : String → TItem
  deriving Repr, DecidableEq

/-- The lookup key of a field: the field name is the part before the
first `:` (start of the format spec), and of that the part before the
first `!` (start of the conversion). -/
def fieldKey (cs : List Char) : String :=
  String.mk (pyPartitionChar '!' (pyPartitionChar ':' cs).1).1

/-- Parser state: in literal text, or inside a field (with the
reversed accumulated field characters). -/
inductive PMode where
  | norm
  | inField (acc : List Char)

/-- Parse a format template into items; `none` on unbalanced braces
(`Single '}' encountered` or an unterminated field, a `ValueError`
from `string.Formatter`). -/
def parseTemplateGo : PMode → List Char → Option (List TItem)
  | .norm, [] => some []
  | .norm, [c] =>
    if c = braceOpen || c = braceClose then none
    else some [TItem.lit (String.mk [c])]
  | .norm, c :: c2 :: rest2 =>
    if c = braceOpen then
      if c2 = braceOpen then
        (parseTemplateGo .norm rest2).map
          (fun its => TItem.lit (String.mk [braceOpen]) :: its)
      else
        parseTemplateGo (.inField []) (c2 :: rest2)
    else if c = braceClose then
      if c2 = braceClose then
        (parseTemplateGo .norm rest2).map
          (fun its => TItem.lit (String.mk [braceClose]) :: its)
      else
        none
    else
      (parseTemplateGo .norm (c2 :: rest2)).map
        (fun its => TItem.lit (String.mk [c]) :: its)
  | .inField _, [] => none
  | .inField acc, c :: rest =>
    if c = braceClose then
      (parseTemplateGo .norm rest).map
        (fun its => TItem.field (fieldKey acc.reverse) :: its)
    else if c = braceOpen then
      none
    else
      parseTemplateGo (.inField (c :: acc)) rest

/-- Parse a format template string. -/
def parseTemplate (tmpl : String) : Option (List TItem) :=
  parseTemplateGo .norm tmpl.data

/-- Look up a format argument by name in the keyword-argument map. -/
def lookupArg (args : List (String × α)) (name : String) : Option α :=
  (args.find? (fun p => p.1 = name)).map Prod.snd

/-- Render parsed template items with `_PartialStringFormatter`
semantics: a field whose name is missing from the argument map yields
the `missing` string. -/
def renderPartial (missing : String) (args : List (String × String)) :
    List TItem → String
  | [] => ""
  | TItem.lit s :: rest => s ++ renderPartial missing args rest
  | TItem.field n :: rest =>
    (lookupArg args n).getD missing ++ renderPartial missing args rest

/-- `_PartialStringFormatter(missing).format(tmpl, **args)`: a
malformed template raises (modelled as `Except.error`); otherwise the
rendering never raises. -/
def partialFormat (missing : String) (tmpl : String)
    (args : List (String × String)) : Except Unit String :=
  match parseTemplate tmpl with
  | none => .error ()
  | some items => .ok (renderPartial missing args items)

/-- A format argument of the lazy formatters: a plain string or a
zero-argument computation. -/
inductive LazyVal where
  | strv : String → LazyVal
  | thunk : (Unit → String) → LazyVal

/-- Force a lazy format argument (`if callable(value): value =
value()`). -/
def LazyVal.force : LazyVal → String
  | .strv s => s
  | .thunk f => f ()

/-- Replace every lazy format argument by its eagerly pre-computed
value. -/
def eagerize (args : List (String × LazyVal)) : List (String × LazyVal) :=
  args.map (fun p => (p.1, LazyVal.strv p.2.force))

/-- Render parsed template items with `_LazyPartialStringFormatter`
semantics: a missing field yields the `missing` string, and a field
mapped to a computation forces it. -/
def renderLazyPartial (missing : String) (args : List (String × LazyVal)) :
    List TItem → String
  | [] => ""
  | TItem.lit s :: rest => s ++ renderLazyPartial missing args rest
  | TItem.field n :: rest =>
    (match lookupArg args n with
     | none => missing
     | some v => v.force) ++ renderLazyPartial missing args rest

/-- Instrumented rendering: also return, in order, the names of the
fields whose computations were invoked (the arguments whose values
were callable and got called). -/
def renderLazyPartialTrace (missing : String)
    (args : List (String × LazyVal)) :
    List TItem → String × List String
  | [] => ("", [])
  | TItem.lit s :: rest =>
    let r := renderLazyPartialTrace missing args rest
    (s ++ r.1, r.2)
  | TItem.field n :: rest =>
    let r := renderLazyPartialTrace missing args rest
    match lookupArg args n with
    | none => (missing ++ r.1, r.2)
    | some (LazyVal.strv s) => (s ++ r.1, r.2)
    | some (LazyVal.thunk f) => (f () ++ r.1, n :: r.2)

/-- The field names referenced by a parsed template. -/
def templateFieldNames : List TItem → List String
  | [] => []
  | TItem.lit _ :: rest => templateFieldNames rest
  | TItem.field n :: rest => n :: templateFieldNames rest

/-! ## korpexport/format/delimited.py

`KorpExportFormatterDelimited._postprocess` splits the formatted text
on newlines, quotes the tab-separated fields of each non-empty line
when the `quote` option is non-empty, and joins the quoted fields with
the `delimiter` option; `KorpExportFormatter._convert_newlines` then
replaces newlines by the `newline` option when it differs from
`"\n"`.  The CSV and TSV mix-in classes fix the options. -/

/-- The options used by the delimited-format post-processing, as
character lists: `delimiter`, `quote`, `replace_quote` (from
`KorpExportFormatterDelimited._option_defaults` and its subclasses)
and `newline` (from `KorpExportFormatter._option_defaults`). -/
structure DelimOpts where
  delimiter : List Char
  quote : List Char
  replace_quote : List Char
  newline : List Char
  deriving Repr, DecidableEq

/-- The effective options of `KorpExportFormatterCSV`: comma
delimiter, double-quote quoting, doubled-quote escaping, CRLF
newlines. -/
def csvOpts : DelimOpts :=
  { delimiter := [',']
    quote := ['\"']
    replace_quote := ['\"', '\"']
    newline := ['\r', '\n'] }

/-- The effective options of `KorpExportFormatterTSV`: tab delimiter,
no quoting, and the base-class newline `"\n"`. -/
def tsvOpts : DelimOpts :=
  { delimiter := ['\t']
    quote := []
    replace_quote := []
    newline := ['\n'] }

/-- `_quote_field`: quotes around the text, quotes inside replaced by
`replace_quote`. -/
def quote_field (o : DelimOpts) (text : List Char) : List Char :=
  o.quote ++ pyReplace o.quote o.replace_quote text ++ o.quote

/-- `_quote_line`: an empty line stays empty; otherwise quote the
tab-separated fields and join them with the delimiter. -/
def quote_line (o : DelimOpts) (line : List Char) : List Char :=
  if line = [] then line
  else joinSep o.delimiter ((pySplitChar '\t' line).map (quote_field o))

/-- `KorpExportFormatterDelimited._postprocess`: when the `quote`
option is truthy (non-empty), quote each newline-separated line. -/
def delimitedPostprocess (o : DelimOpts) (text : List Char) : List Char :=
  if o.quote ≠ [] then
    joinSep ['\n'] ((pySplitChar '\n' text).map (quote_line o))
  else
    text

/-- `KorpExportFormatter._convert_newlines`. -/
def convert_newlines (o : DelimOpts) (text : List Char) : List Char :=
  if o.newline ≠ ['\n'] then pyReplace ['\n'] o.newline text
  else text

/-- The tail of `make_download_content` for a delimited format:
`self._convert_newlines(self._postprocess(text))`. -/
def delimitedPipeline (o : DelimOpts) (text : List Char) : List Char :=
  convert_newlines o (delimitedPostprocess o text)

/-! ## `KorpExportFormatter._make_opt_lists`

List-valued options given as comma-separated strings are split and
each item expanded: `*name` splices in the current value of option
`name`, `?name` keeps `name` only if `info_is_available(name)`, and
any other item is kept literally.  `info_is_available` tests
membership in the precomputed `available_corpus_info` set or
`sentence_token_attr_is_available`, which matches the item against the
regex `(.*?)e?s_(?:all|match|(?:left|right)_context)` with `re.match`
(anchored at the start only) and then requires the captured attribute
name to occur in some token of the query result. -/

/-- Does the character list start with one of the four alternatives
`all|match|left_context|right_context`?  (`re.match` does not anchor
the end, so a prefix suffices.) -/
def kwAltStartsAt (cs : List Char) : Bool :=
  ["all", "match", "left_context", "right_context"].any
    (fun k => k.data.isPrefixOf cs)

/-- Does the character list start with `e?s_` followed by one of the
four alternatives? -/
def pluralTailStartsAt (cs : List Char) : Bool :=
  (match cs with
   | 'e' :: 's' :: '_' :: rest => kwAltStartsAt rest
   | _ => false) ||
  (match cs with
   | 's' :: '_' :: rest => kwAltStartsAt rest
   | _ => false)

/-- The capture of `re.match(r'(.*?)e?s_(?:all|match|(?:left|right)_context)',
item)`: the shortest prefix (the group is lazy) not containing a
newline (`.` does not match `"\n"`) such that the rest of the item
starts with the pluralized tail; `none` when the regex does not
match. -/
def pluralAttrMatch (cs : List Char) : Option (List Char) :=
  ((List.range (cs.length + 1)).find?
      (fun i => (cs.take i).all (fun c => c ≠ '\n')
        && pluralTailStartsAt (cs.drop i))).map
    (fun i => cs.take i)

/-- `sentence_token_attr_is_available(item)`: the regex matches and
the captured attribute name occurs in some token of the result. -/
def sentence_token_attr_is_available (q : QueryResult) (item : String) :
    Bool :=
  match pluralAttrMatch item.data with
  | none => false
  | some attr => get_occurring_attrnames q [String.mk attr] ≠ []

/-- `info_is_available(item)`: membership in the precomputed
`available_corpus_info` set, or an available sentence token attribute
field. -/
def info_is_available (avail : List String) (q : QueryResult)
    (item : String) : Bool :=
  item ∈ avail || sentence_token_attr_is_available q item

/-- The value of an option: a raw string or an (expanded) list. -/
inductive OptValue where
  | str : String → OptValue
  | list : List String → OptValue
  deriving Repr, DecidableEq

/-- The option dictionary of a formatter instance. -/
abbrev Opts := List (String × OptValue)

/-- Look up an option. -/
def optLookup (opts : Opts) (k : String) : Option OptValue :=
  (opts.find? (fun p => p.1 = k)).map Prod.snd

/-- Set an option (Python `self._opts[k] = v`). -/
def optSet (opts : Opts) (k : String) (v : OptValue) : Opts :=
  if (optLookup opts k).isSome then
    opts.map (fun p => if p.1 = k then (k, v) else p)
  else
    opts ++ [(k, v)]

/-- The splice produced by `adjusted_list.extend(self._opts.get(name,
[]))` for a `*name` item: a list value is spliced as such; a string
value is iterated over by `extend`, yielding its characters as
one-character strings; a missing option yields nothing. -/
def optSpliceList : Option OptValue → List String
  | some (.list xs) => xs
  | some (.str s) => s.data.map (fun c => String.mk [c])
  | none => []

/-- `adjust_item(item)` of `_make_opt_lists`. -/
def adjust_item (opts : Opts) (avail : List String) (q : QueryResult)
    (item : String) : List String :=
  match item.data with
  | c :: rest =>
    if c = '*' then optSpliceList (optLookup opts (String.mk rest))
    else if c = '?' then
      if info_is_available avail q (String.mk rest) then [String.mk rest]
      else []
    else [item]
  | [] => [item]

/-- Expansion of the items of one list-valued option, in input order
(`adjusted_list.extend(adjust_item(item))` for each item). -/
def expandOptItems (opts : Opts) (avail : List String) (q : QueryResult)
    (items : List String) : List String :=
  items.flatMap (adjust_item opts avail q)

/-- The body of the `for optkey in self._opts.get("list_valued_opts")`
loop of `_make_opt_lists` for one option key: a string value is split
on commas (the empty string giving `[]`) and its items expanded; the
dict is updated before the items are expanded, so `*optkey` inside the
option itself would see the split but unexpanded list. -/
def makeOptListStep (avail : List String) (q : QueryResult)
    (opts : Opts) (optkey : String) : Opts :=
  match optLookup opts optkey with
  | some (.str s) =>
    if s = "" then optSet opts optkey (.list [])
    else
      let items := (pySplitChar ',' s.data).map String.mk
      let opts' := optSet opts optkey (.list items)
      optSet opts' optkey (.list (expandOptItems opts' avail q items))
  | _ => opts

/-- The `for optkey in ...` loop of `_make_opt_lists` over the keys
listed in the option `list_valued_opts`. -/
def makeOptLists (avail : List String) (q : QueryResult)
    (optkeys : List String) (opts : Opts) : Opts :=
  optkeys.foldl (makeOptListStep avail q) opts

/-! ## Specification-side definitions

Definitions written from the spec's words, to be compared with the
source-derived definitions above. -/

/-- The attribute name-value pairs contributed by one parsed entry:
nothing for an entry without a value. -/
def entryAttrs (entry : String × String × Option String) :
    List (String × String) :=
  match entry.2.2 with
  | none => []
  | some v => [(entry.2.1, v)]

/-- Modelled from the spec: grouping of parsed structural entries that
"merges only adjacent entries sharing the same element name,
preserving the order of first occurrence", carrying the group under
construction. -/
def specCombineGo (cur : String × List (String × String)) :
    List (String × String × Option String) →
    List (String × List (String × String))
  | [] => [cur]
  | entry :: rest =>
    if entry.1 = cur.1 then
      specCombineGo (cur.1, cur.2 ++ entryAttrs entry) rest
    else
      cur :: specCombineGo (entry.1, entryAttrs entry) rest

/-- Modelled from the spec: combine mode "splits each open entry on
the first space into element-part and attribute value, splits the
remainder on the first underscore into element name and attribute
name, and merges only adjacent entries sharing the same element name,
preserving the order of first occurrence". -/
def specCombine (isOpen : Bool) (structs : List String) :
    List (String × List (String × String)) :=
  match structs.map (parseStructEntry isOpen) with
  | [] => []
  | entry :: rest => specCombineGo (entry.1, entryAttrs entry) rest

/-- Modelled from the spec (claim C7): the item "matches the
pluralized token-attribute field pattern `<attr>s_(all|match|
left_context|right_context)`" — read as a full match, the whole name
being the attribute followed by `s_` and one of the four keywords —
"for an attribute `<attr>` occurring in some token of the result". -/
def specFullPluralPattern (q : QueryResult) (item : String) : Bool :=
  (List.range (item.data.length + 1)).any (fun i =>
    (["all", "match", "left_context", "right_context"].any
      (fun kw => item.data.drop i = 's' :: '_' :: kw.data))
    && get_occurring_attrnames q [String.mk (item.data.take i)] ≠ [])

/-- Modelled from the spec (claim C7): `?name` "is included if and
only if name is in the precomputed set of available corpus-info keys
or name matches the pluralized token-attribute field pattern". -/
def specInfoAvailable (avail : List String) (q : QueryResult)
    (item : String) : Bool :=
  item ∈ avail || specFullPluralPattern q item

/-! ## Concrete data for counterexamples and witnesses -/

/-- A one-attribute token. -/
def tokA : Token := ⟨[("word", "a")], none⟩

/-- A one-token sentence whose match record is `{start: 0, end: 0}`
(an empty match span at position 0). -/
def sentEmptyMatch : Sentence := ⟨[tokA], some ⟨some 0, some 0, none⟩, none⟩

/-- Match-marking options with only `match_open` set. -/
def marksOpenOnly : MarkOpts := ⟨"[", "", ""⟩

/-- A token with attributes `word` and `foo`. -/
def tokFoo : Token := ⟨[("word", "w"), ("foo", "x")], none⟩

/-- A query result whose tokens carry the attribute `foo`. -/
def qrFoo : QueryResult := ⟨some [⟨[tokFoo], none, none⟩]⟩

/-! ## Helper lemmas -/

/-- An unrestricted slice returns the whole list. -/
theorem pySlice_none_none (xs : List α) : pySlice xs none none = xs := by
  simp [pySlice]

/-! ## Claim C2 -/

/-- C2: For every sentence that lacks a match record, the token-slice
accessor returns, without raising: for kind = match, the empty token
list; for kind = left_context, the whole token list of the sentence;
for kind = right_context, the empty token list. -/
theorem claim2_no_match_slices (s : Sentence) (h : s.matchRec = none) :
    get_sentence_tokens_match s = []
    ∧ get_sentence_tokens_left_context s = s.tokens
    ∧ get_sentence_tokens_right_context s = [] := by
  refine ⟨?_, ?_, ?_⟩
  · simp [get_sentence_tokens_match, get_sentence_match, h, MatchRec.truthy]
  · simp [get_sentence_tokens_left_context, get_sentence_match_start,
          get_sentence_match, h, get_sentence_tokens_base, pySlice_none_none]
  · simp [get_sentence_tokens_right_context, get_sentence_match_end,
          get_sentence_match, h, get_sentence_tokens_base]

/-- Witness for C2 at a concrete one-token sentence without a match
record. -/
theorem claim2_witness :
    (Sentence.mk [tokA] none none).matchRec = none
    ∧ (get_sentence_tokens_match (Sentence.mk [tokA] none none) = []
       ∧ get_sentence_tokens_left_context (Sentence.mk [tokA] none none)
           = [tokA]
       ∧ get_sentence_tokens_right_context (Sentence.mk [tokA] none none)
           = []) :=
  ⟨rfl, claim2_no_match_slices (Sentence.mk [tokA] none none) rfl⟩

/-! ## Claim C10 -/

/-- C10: For every query result that has no sentence-list key, or
whose sentence list is empty, or whose first sentence lacks a corpus
field, the parallel-corpus test returns False and never raises; it
returns True only when the first sentence's corpus string contains the
separator character `|`. -/
theorem claim10_parallel_corpus (q : QueryResult) :
    ((q.kwic = none ∨ q.kwic = some [] ∨
        ∃ s rest, q.kwic = some (s :: rest) ∧ s.corpus = none) →
      is_parallel_corpus q = false)
    ∧ (is_parallel_corpus q = true →
        ∃ s rest c, q.kwic = some (s :: rest) ∧ s.corpus = some c
          ∧ c.data.contains '|' = true) := by
  constructor
  · rintro (h | h | ⟨s, rest, h, hc⟩) <;>
      simp [is_parallel_corpus, h] <;> simp [hc]
  · intro h
    match hq : q.kwic with
    | none => simp [is_parallel_corpus, hq] at h
    | some [] => simp [is_parallel_corpus, hq] at h
    | some (s :: rest) =>
      match hc : s.corpus with
      | none => simp [is_parallel_corpus, hq, hc] at h
      | some c =>
        exact ⟨s, rest, c, rfl, hc,
               by simpa [is_parallel_corpus, hq, hc] using h⟩

/-- Witness for C10 at a concrete result with no `kwic` key. -/
theorem claim10_witness : is_parallel_corpus (QueryResult.mk none) = false :=
  (claim10_parallel_corpus (QueryResult.mk none)).1 (Or.inl rfl)

/-! ## Claim C9 -/

/-- Close entries are parsed with no attribute value, so folding the
combine step over them never accumulates an attribute pair. -/
theorem combine_close_all_empty (structs : List String)
    (acc : List (String × List (String × String)))
    (hacc : (acc.all fun p => p.2.isEmpty) = true) :
    ((structs.foldl (combineStructStep false) acc).all
      fun p => p.2.isEmpty) = true := by
  induction structs generalizing acc with
  | nil => exact hacc
  | cons s rest ih =>
    apply ih
    simp only [combineStructStep, combineParsedStep, parseStructEntry,
               Bool.false_eq_true, if_false]
    split <;> simp_all <;> exact hacc

/-- C9: For every token, token_structs_close with combine = true
returns a list in which the second component of every pair is the
empty attribute list, and it returns the empty list when the token has
no structs entry. -/
theorem claim9_close_structs_no_attrs (t : Token) :
    ((get_token_structs_close_combined t).all fun p => p.2.isEmpty) = true
    ∧ ∀ attrs : List (String × String),
        get_token_structs_close_combined (Token.mk attrs none) = [] := by
  constructor
  · exact combine_close_all_empty _ [] rfl
  · intro attrs
    rfl

/-! ## Claim C3 -/

/-- `updateLast` on a list with an explicit last element. -/
theorem updateLast_concat (f : α → α) (acc : List α) (x : α) :
    updateLast f (acc ++ [x]) = acc ++ [f x] := by
  induction acc with
  | nil => rfl
  | cons a acc ih =>
    cases acc with
    | nil => rfl
    | cons b acc' => simpa [updateLast] using ih

/-- `updateLast` on a list with two explicit trailing elements. -/
theorem updateLast_concat2 (f : α → α) (acc : List α) (y x : α) :
    updateLast f (acc ++ [y, x]) = acc ++ [y, f x] := by
  simpa using updateLast_concat f (acc ++ [y]) x

/-- The combine step on an accumulator with an explicit last group:
the entry merges into the last group iff its element name matches. -/
theorem combineParsedStep_concat
    (acc : List (String × List (String × String)))
    (cur : String × List (String × String))
    (entry : String × String × Option String) :
    combineParsedStep (acc ++ [cur]) entry =
      if entry.1 = cur.1 then acc ++ [(cur.1, cur.2 ++ entryAttrs entry)]
      else (acc ++ [cur]) ++ [(entry.1, entryAttrs entry)] := by
  obtain ⟨elem, attrname, attrval?⟩ := entry
  have hlast : (acc ++ [cur]).getLast? = some cur := List.getLast?_concat _
  by_cases he : elem = cur.1
  · subst he
    have hng : needNewGroup (acc ++ [cur]) cur.1 = false := by
      simp [needNewGroup, hlast]
    cases attrval? with
    | none => simp [combineParsedStep, hng, entryAttrs]
    | some v =>
      simp [combineParsedStep, hng, entryAttrs, updateLast_concat]
  · have hng : needNewGroup (acc ++ [cur]) elem = true := by
      simp [needNewGroup, hlast]
      exact fun hcur => he hcur.symm
    cases attrval? with
    | none => simp [combineParsedStep, hng, entryAttrs, he]
    | some v =>
      simp [combineParsedStep, hng, entryAttrs, he, updateLast_concat2]

/-- Folding the combine step with a non-empty accumulator is adjacent
grouping continued from the last group. -/
theorem foldl_combineParsedStep_concat
    (entries : List (String × String × Option String)) :
    ∀ (acc : List (String × List (String × String)))
      (cur : String × List (String × String)),
      entries.foldl combineParsedStep (acc ++ [cur])
        = acc ++ specCombineGo cur entries := by
  induction entries with
  | nil => intro acc cur; simp [specCombineGo]
  | cons e rest ih =>
    intro acc cur
    rw [List.foldl_cons, combineParsedStep_concat]
    by_cases he : e.1 = cur.1
    · rw [if_pos he, ih acc (cur.1, cur.2 ++ entryAttrs e)]
      simp [specCombineGo, he]
    · rw [if_neg he, ih (acc ++ [cur]) (e.1, entryAttrs e)]
      simp [specCombineGo, he]

/-- The source's `_combine_struct_attrs` fold equals the adjacent
grouping described by the spec. -/
theorem combine_eq_specCombine (structs : List String) (isOpen : Bool) :
    combine_struct_attrs structs isOpen = specCombine isOpen structs := by
  have hfold : combine_struct_attrs structs isOpen
      = (structs.map (parseStructEntry isOpen)).foldl combineParsedStep [] := by
    rw [combine_struct_attrs, List.foldl_map]
    rfl
  rw [hfold, specCombine]
  cases hmap : structs.map (parseStructEntry isOpen) with
  | nil => rfl
  | cons e rest =>
    have hstep : combineParsedStep [] e = [] ++ [(e.1, entryAttrs e)] := by
      obtain ⟨elem, attrname, attrval?⟩ := e
      cases attrval? with
      | none => rfl
      | some v => rfl
    rw [List.foldl_cons, hstep, foldl_combineParsedStep_concat]
    rfl

/-- C3: For every token whose list of raw open markers is
`["s_id 42", "s_type prose"]`, token_structs_open with combine = true
returns exactly the single grouped entry
`("s", [("id","42"), ("type","prose")])`, and with combine = false
returns the two raw strings unchanged; in general, combine mode splits
each open entry on the first space into element-part and attribute
value, splits the remainder on the first underscore into element name
and attribute name, and merges only adjacent entries sharing the same
element name, preserving the order of first occurrence. -/
theorem claim3_combine_struct_attrs (t : Token)
    (h : get_token_structs_open_raw t = ["s_id 42", "s_type prose"]) :
    get_token_structs_open_combined t
        = [("s", [("id", "42"), ("type", "prose")])]
    ∧ get_token_structs_open_raw t = ["s_id 42", "s_type prose"]
    ∧ ∀ (structs : List String) (isOpen : Bool),
        combine_struct_attrs structs isOpen = specCombine isOpen structs := by
  refine ⟨?_, h, fun structs isOpen => combine_eq_specCombine structs isOpen⟩
  rw [get_token_structs_open_combined,
      show get_token_structs_raw t true = ["s_id 42", "s_type prose"] from h]
  decide

/-- Witness for C3 at a concrete token carrying the raw open markers
`["s_id 42", "s_type prose"]`. -/
theorem claim3_witness :
    get_token_structs_open_raw
        (Token.mk [("word", "w")] (some ⟨some ["s_id 42", "s_type prose"], none⟩))
      = ["s_id 42", "s_type prose"]
    ∧ get_token_structs_open_combined
        (Token.mk [("word", "w")] (some ⟨some ["s_id 42", "s_type prose"], none⟩))
      = [("s", [("id", "42"), ("type", "prose")])] :=
  ⟨rfl,
   (claim3_combine_struct_attrs
     (Token.mk [("word", "w")] (some ⟨some ["s_id 42", "s_type prose"], none⟩))
     rfl).1⟩

/-! ## Claim C1

The claim quantifies over all match records with
`0 <= start <= end <= number of tokens`.  It fails for `end = 0`: the
marker computation in `_format_token` is guarded by
`if kwargs.get("match_end")`, and the Python int `0` is falsy, so an
empty match span at position 0 emits no match-open marker although the
claim requires one at token index `start = 0`.  For `end >= 1` the
claim holds as stated. -/

/-- The claim, as stated, is false at a one-token sentence with match
record `{start: 0, end: 0}` and a non-empty match-open option: the
claim requires the match-open string `"["` at token index 0, but the
rendered token receives no marker. -/
theorem claim1_counterexample :
    sentenceTokensMarks marksOpenOnly sentEmptyMatch TokensType.all
        = [("", "", "")]
    ∧ ¬ sentenceTokensMarks marksOpenOnly sentEmptyMatch TokensType.all
        = [("[", "", "")] := by
  decide

/-- C1 (amended: additionally assuming the match end is at least 1):
for every sentence whose match record is `{start: s, end: e}` with
`0 <= s <= e <= number of tokens` and `1 <= e`, and at least one of
the match_open/match_close/match_marker options non-empty, rendering
the full token list emits the match-open string exactly at the token
with index `s`, the match-close string exactly at the token with index
`e - 1`, and the match-marker string exactly at the tokens with index
`i` satisfying `s <= i < e`; tokens rendered as part of the
left-context or right-context slices receive none of these three
markers. -/
theorem claim1_match_span_markers (o : MarkOpts) (s : Sentence)
    (st en : Int) (pos? : Option Int)
    (hm : s.matchRec = some ⟨some st, some en, pos?⟩)
    (hst : 0 ≤ st) (hste : st ≤ en) (hlen : en ≤ (s.tokens.length : Int))
    (hen : 1 ≤ en) (hopt : o.anyNonEmpty = true) :
    sentenceTokensMarks o s TokensType.all
      = (List.range s.tokens.length).map (fun i =>
          ((if (i : Int) = st then o.match_open else ""),
           (if (i : Int) = en - 1 then o.match_close else ""),
           (if st ≤ (i : Int) ∧ (i : Int) < en then o.match_marker else "")))
    ∧ ((sentenceTokensMarks o s TokensType.leftContext).all
        fun m => m = ("", "", ""))
    ∧ ((sentenceTokensMarks o s TokensType.rightContext).all
        fun m => m = ("", "", "")) := by
  refine ⟨?_, ?_, ?_⟩
  · have htok : get_sentence_tokens s TokensType.all = s.tokens := by
      simp [get_sentence_tokens, get_sentence_tokens_all,
            get_sentence_tokens_base, pySlice_none_none]
    have hkw : matchKwargs o s TokensType.all
        (get_sentence_tokens s TokensType.all) = (some st, some en) := by
      simp [matchKwargs, hopt, get_sentence_match_start,
            get_sentence_match_end, get_sentence_match, hm]
    rw [sentenceTokensMarks, hkw, htok]
    refine List.map_congr_left (fun i hi => ?_)
    have hent : en ≠ 0 := by omega
    simp only [tokenMatchMarks, optIntTruthy, Option.elim, hent, ne_eq,
               not_false_eq_true, decide_true_eq_true, if_true]
    refine Prod.ext ?_ (Prod.ext ?_ ?_)
    · by_cases h1 : (i : Int) = st <;> simp [h1]
    · by_cases h2 : (i : Int) = en - 1 <;> simp [h2]
    · by_cases h3 : st ≤ (i : Int) ∧ (i : Int) < en
      · simp [h3.1, h3.2]
      · rcases not_and_or.mp h3 with h4 | h4 <;> simp [h4, h3] <;> omega
  · cases ho : o.anyNonEmpty <;>
      simp [sentenceTokensMarks, matchKwargs, tokenMatchMarks, optIntTruthy, ho]
  · cases ho : o.anyNonEmpty <;>
      simp [sentenceTokensMarks, matchKwargs, tokenMatchMarks, optIntTruthy, ho]

/-- Witness for the amended C1 at a five-token sentence with match
record `{start: 1, end: 3}` and all three marker options set. -/
theorem claim1_witness :
    sentenceTokensMarks (MarkOpts.mk "<" ">" "*")
        (Sentence.mk [tokA, tokA, tokA, tokA, tokA]
          (some ⟨some 1, some 3, none⟩) none) TokensType.all
      = [("", "", ""), ("<", "", "*"), ("", ">", "*"),
         ("", "", ""), ("", "", "")] :=
  ((claim1_match_span_markers (MarkOpts.mk "<" ">" "*")
      (Sentence.mk [tokA, tokA, tokA, tokA, tokA]
        (some ⟨some 1, some 3, none⟩) none)
      1 3 none rfl (by decide) (by decide) (by decide) (by decide)
      (by decide)).1).trans (by decide)

/-! ## Claim C4

`_get_formatter_class` reverses the named-format list before using the
found classes as bases, so the class of the *last*-named format comes
first among the bases and hence earliest in the MRO of the constructed
class; `_get_combined_values` lets classes earlier in the MRO
override.  The effective default for a contested key therefore comes
from the last-named format, not the first-named one as the claim
states. -/

/-- Lookup distributes over the lookup-ordered append. -/
theorem dictGet_append (a b : OptDict) (k : String) :
    dictGet (a ++ b) k = (dictGet a k).orElse (fun _ => dictGet b k) := by
  simp [dictGet, List.find?_append]
  cases a.find? (fun p => p.1 = k) <;> simp [Option.orElse]

/-- `_get_combined_values` flattens the MRO dicts in MRO order:
a class earlier in the MRO shadows one later. -/
theorem getCombinedValues_eq_flatten (mroDicts : List OptDict) :
    getCombinedValues mroDicts = mroDicts.flatten := by
  have hfold : ∀ (ds : List OptDict) (acc : OptDict),
      ds.foldl pyUpdate acc = ds.reverse.flatten ++ acc := by
    intro ds
    induction ds with
    | nil => intro acc; simp
    | cons d rest ih =>
      intro acc
      simp [pyUpdate, ih, List.flatten_append]
  simp [getCombinedValues, hfold]

/-- Lookup in flattened dicts is `findSome?` over them in order. -/
theorem dictGet_flatten (ds : List OptDict) (k : String) :
    dictGet ds.flatten k = ds.findSome? (fun d => dictGet d k) := by
  induction ds with
  | nil => rfl
  | cons d rest ih =>
    rw [List.flatten_cons, dictGet_append, List.findSome?_cons, ih]
    cases dictGet d k <;> simp [Option.orElse]

/-- The claim, as stated, is false at a request naming two formats
whose overlays both define the key `delimiter`: the first-named format
declares `"\t"`, the last-named `","`, and the effective combined
default is `","` — the last-named format's value, not the
first-named's. -/
theorem claim4_counterexample :
    dictGet (combinedOptionDefaults
        [[("delimiter", "\t")], [("delimiter", ",")]] []) "delimiter"
      = some ","
    ∧ ¬ dictGet (combinedOptionDefaults
        [[("delimiter", "\t")], [("delimiter", ",")]] []) "delimiter"
      = some "\t" := by
  decide

/-- C4 (amended: the defaults of the *last*-named format win): when a
single export request names multiple formats jointly, the per-format
default-option overlays are combined through the constructed class's
MRO, in which the named formats appear in reverse of the listed order,
so that for every option key the effective default is the one declared
by the last format in the listed order that declares the key at all
(later-named formats' defaults override both earlier-named formats'
and the shared base classes' defaults). -/
theorem claim4_combined_defaults (fmts base : List OptDict)
    (k v : String)
    (h : fmts.reverse.findSome? (fun d => dictGet d k) = some v) :
    dictGet (combinedOptionDefaults fmts base) k = some v := by
  rw [combinedOptionDefaults, getCombinedValues_eq_flatten,
      formatterClassMRO, dictGet_flatten]
  simp only [List.findSome?_cons, List.findSome?_append, h,
             show dictGet ([] : OptDict) k = none from rfl]
  rfl

/-- Witness for the amended C4: of three formats named jointly, the
last-named one defining `delimiter` provides the effective value. -/
theorem claim4_witness :
    ([[("delimiter", "\t"), ("quote", "")], [("delimiter", ",")],
        [("newline", "\r\n")]] : List OptDict).reverse.findSome?
      (fun d => dictGet d "delimiter") = some ","
    ∧ dictGet (combinedOptionDefaults
        [[("delimiter", "\t"), ("quote", "")], [("delimiter", ",")],
         [("newline", "\r\n")]] [[("delimiter", "x")]]) "delimiter"
      = some "," :=
  ⟨by decide,
   claim4_combined_defaults
     [[("delimiter", "\t"), ("quote", "")], [("delimiter", ",")],
      [("newline", "\r\n")]] [[("delimiter", "x")]] "delimiter" ","
     (by decide)⟩

/-! ## Claim C6 -/

/-- C6: For every template string (well-formed with respect to
substitution braces) and every argument map, expanding a template that
references a field absent from the map never raises (the result is
`Except.ok` of the rendering); every reference to the absent field
yields the same configured placeholder string, so the rendering equals
that of the template with each such field reference replaced by the
placeholder as a literal — in particular a template referencing the
undefined field twice yields the placeholder both times. -/
theorem claim6_missing_field_placeholder (missing tmpl : String)
    (items : List TItem) (args : List (String × String)) (name : String)
    (hp : parseTemplate tmpl = some items)
    (hmiss : lookupArg args name = none) :
    partialFormat missing tmpl args
        = Except.ok (renderPartial missing args items)
    ∧ renderPartial missing args items
        = renderPartial missing args
            (items.map (fun it =>
              if it = TItem.field name then TItem.lit missing else it)) := by
  constructor
  · rw [partialFormat, hp]
  · clear hp
    induction items with
    | nil => rfl
    | cons it rest ih =>
      cases it with
      | lit s => simp [renderPartial, ih]
      | field n =>
        by_cases hn : n = name
        · subst hn
          simp [renderPartial, hmiss, ih]
        · simp [renderPartial, TItem.field.injEq, hn, ih]

/-- Witness for C6: a template referencing the undefined field `x`
twice renders the placeholder both times and does not raise. -/
theorem claim6_witness :
    parseTemplate "a{x}b{x}"
      = some [TItem.lit "a", TItem.field "x", TItem.lit "b", TItem.field "x"]
    ∧ lookupArg [("y", "v")] "x" = (none : Option String)
    ∧ partialFormat "-" "a{x}b{x}" [("y", "v")] = Except.ok "a-b-" :=
  ⟨by decide, by decide,
   ((claim6_missing_field_placeholder "-" "a{x}b{x}"
      [TItem.lit "a", TItem.field "x", TItem.lit "b", TItem.field "x"]
      [("y", "v")] "x" (by decide) (by decide)).1).trans
     (congrArg Except.ok (by decide))⟩

/-! ## Claim C8 -/

/-- Looking up in the eagerized argument map forces the looked-up
value. -/
theorem lookupArg_eagerize (args : List (String × LazyVal)) (n : String) :
    lookupArg (eagerize args) n
      = (lookupArg args n).map (fun v => LazyVal.strv v.force) := by
  induction args with
  | nil => rfl
  | cons p rest ih =>
    simp only [lookupArg, eagerize] at ih ⊢
    by_cases hp : p.1 = n
    · simp [List.find?_cons, hp]
    · simp only [List.map_cons, List.find?_cons, hp]
      simpa using ih

/-- C8: For every template and argument map in which some field values
are zero-argument computations (lazy fields), the formatted output
equals the output obtained after replacing each lazy field value by
its eagerly pre-computed value; moreover the instrumented renderer
shows that a lazy field's computation is invoked only if its field
name appears among the fields of the template being expanded. -/
theorem claim8_lazy_fields (missing : String) (items : List TItem)
    (args : List (String × LazyVal)) :
    renderLazyPartial missing args items
        = renderLazyPartial missing (eagerize args) items
    ∧ (renderLazyPartialTrace missing args items).1
        = renderLazyPartial missing args items
    ∧ ((renderLazyPartialTrace missing args items).2.all
        (fun n => n ∈ templateFieldNames items)) = true := by
  refine ⟨?_, ?_, ?_⟩
  · induction items with
    | nil => rfl
    | cons it rest ih =>
      cases it with
      | lit s => simp [renderLazyPartial, ih]
      | field n =>
        rw [renderLazyPartial, renderLazyPartial, lookupArg_eagerize, ih]
        cases lookupArg args n with
        | none => rfl
        | some v => cases v <;> rfl
  · induction items with
    | nil => rfl
    | cons it rest ih =>
      cases it with
      | lit s => simp [renderLazyPartial, renderLazyPartialTrace, ih]
      | field n =>
        rw [renderLazyPartial, renderLazyPartialTrace]
        cases lookupArg args n with
        | none => simp [ih]
        | some v => cases v <;> simp [LazyVal.force, ih]
  · have hsub : ∀ (its : List TItem) (n : String),
        n ∈ (renderLazyPartialTrace missing args its).2 →
        n ∈ templateFieldNames its := by
      intro its
      induction its with
      | nil => intro n hn; simp [renderLazyPartialTrace] at hn
      | cons it rest ih =>
        intro n hn
        cases it with
        | lit s =>
          rw [renderLazyPartialTrace] at hn
          exact ih n hn
        | field m =>
          rw [renderLazyPartialTrace] at hn
          rw [templateFieldNames]
          cases hv : lookupArg args m with
          | none =>
            rw [hv] at hn
            exact List.mem_cons_of_mem _ (ih n hn)
          | some v =>
            cases v with
            | strv s =>
              rw [hv] at hn
              exact List.mem_cons_of_mem _ (ih n hn)
            | thunk f =>
              rw [hv] at hn
              simp only [List.mem_cons] at hn
              rcases hn with hn | hn
              · exact hn ▸ List.mem_cons_self m (templateFieldNames rest)
              · exact List.mem_cons_of_mem _ (ih n hn)
    refine List.all_eq_true.mpr (fun n hn => ?_)
    exact decide_eq_true (hsub items n hn)

/-! ## Claim C7

The claim describes `?name` as included iff `name` is in the
availability set or *matches* the pluralized token-attribute pattern
`<attr>s_(all|match|left_context|right_context)`.  The code instead
uses `re.match` with the regex `(.*?)e?s_(?:all|match|(?:left|right)
_context)`, which (a) is not anchored at the end, so a *prefix* match
suffices, and (b) allows `es_` in addition to `s_`, the attribute
captured being the shortest (lazy) one.  An item like `foos_all_junk`
is therefore included by the code (prefix `foos_all` matches with
attribute `foo`) although it matches no full pattern `<attr>s_(...)`. -/

/-- After setting an option, looking up the same key returns the new
value. -/
theorem find?_map_replace (opts : Opts) (k : String) (v : OptValue) :
    (opts.map (fun p => if p.1 = k then (k, v) else p)).find?
        (fun p => p.1 = k)
      = (opts.find? (fun p => p.1 = k)).map (fun _ => (k, v)) := by
  induction opts with
  | nil => rfl
  | cons p rest ih =>
    by_cases hp : p.1 = k
    · simp [List.find?_cons, hp]
    · simpa [List.find?_cons, hp] using ih

/-- `optSet` followed by `optLookup` at the same key yields the set
value. -/
theorem optLookup_optSet_self (opts : Opts) (k : String) (v : OptValue) :
    optLookup (optSet opts k v) k = some v := by
  rw [optSet]
  split
  · rw [optLookup, find?_map_replace]
    rename_i hsome
    rw [optLookup] at hsome
    cases hfind : opts.find? (fun p => p.1 = k) with
    | none => rw [hfind] at hsome; simp at hsome
    | some p => simp
  · rw [optLookup, List.find?_append]
    rename_i hnone
    rw [optLookup] at hnone
    cases hfind : opts.find? (fun p => p.1 = k) with
    | none => simp
    | some p => rw [hfind] at hnone; simp at hnone

/-- The claim, as stated, is false at a query result whose tokens
carry the attribute `foo`, an empty availability set and the item
`?foos_all_junk`: the name matches no full pattern `<attr>s_(all|
match|left_context|right_context)` and is not in the set, so the claim
excludes it, but the code's prefix-matching regex includes it. -/
theorem claim7_counterexample :
    specInfoAvailable [] qrFoo "foos_all_junk" = false
    ∧ adjust_item [] [] qrFoo "?foos_all_junk" = ["foos_all_junk"]
    ∧ ¬ adjust_item [] [] qrFoo "?foos_all_junk" = [] := by
  decide

/-- C7 (amended: the pluralized-pattern test is a prefix match, with
an optional `e` before the `s`, the checked attribute being the
shortest capture): in list-valued option expansion, each
comma-separated item is expanded in input order with no deduplication
of the resulting list: an item `*name` is replaced by the current
value of option `name` (the option being processed having already been
replaced by its split but unexpanded item list); an item `?name` is
included (as the literal string `name`) if and only if `name` is in
the precomputed set of available corpus-info keys or a prefix of
`name` matches `<attr>e?s_(all|match|left_context|right_context)` for
the shortest such attribute `<attr>` occurring in some token of the
result; every other item is included literally. -/
theorem claim7_opt_list_expansion (avail : List String) (q : QueryResult)
    (opts : Opts) (k s : String)
    (hk : optLookup opts k = some (.str s)) (hs : s ≠ "") :
    optLookup (makeOptLists avail q [k] opts) k
      = some (.list (((pySplitChar ',' s.data).map String.mk).flatMap
          (fun item => match item.data with
            | c :: rest =>
              if c = '*' then
                optSpliceList (optLookup
                  (optSet opts k
                    (.list ((pySplitChar ',' s.data).map String.mk)))
                  (String.mk rest))
              else if c = '?' then
                if String.mk rest ∈ avail
                    || sentence_token_attr_is_available q (String.mk rest)
                then [String.mk rest]
                else []
              else [item]
            | [] => [item]))) := by
  have hstep : makeOptLists avail q [k] opts = makeOptListStep avail q opts k :=
    rfl
  rw [hstep]
  simp only [makeOptListStep, hk]
  rw [if_neg hs, optLookup_optSet_self]
  rfl

/-- Witness for the amended C7: splitting and expanding a
three-item option, with a `*` splice and a `?` item kept through the
prefix-matching attribute test, in order and without deduplication. -/
theorem claim7_witness :
    optLookup
        (makeOptLists [] qrFoo ["fields"]
          [("fields", OptValue.str "a,*extra,?foos_all"),
           ("extra", OptValue.list ["x", "y"])])
        "fields"
      = some (OptValue.list ["a", "x", "y", "foos_all"]) :=
  (claim7_opt_list_expansion [] qrFoo
      [("fields", OptValue.str "a,*extra,?foos_all"),
       ("extra", OptValue.list ["x", "y"])]
      "fields" "a,*extra,?foos_all" (by decide) (by decide)).trans
    (by decide)

/-! ## Claim C5 -/

/-- Replacing a one-character pattern maps each character. -/
theorem pyReplaceGo_single (c : Char) (rep : List Char) :
    ∀ s, pyReplaceGo [c] rep 0 s
      = s.flatMap (fun x => if x = c then rep else [x]) := by
  intro s
  induction s with
  | nil => rfl
  | cons x rest ih =>
    by_cases hx : c = x
    · subst hx
      simp [pyReplaceGo, List.isPrefixOf, ih]
    · simp [pyReplaceGo, List.isPrefixOf, hx, Ne.symm hx, ih]

/-- Replacing a one-character pattern maps each character. -/
theorem pyReplace_single (c : Char) (rep s : List Char) :
    pyReplace [c] rep s
      = s.flatMap (fun x => if x = c then rep else [x]) :=
  pyReplaceGo_single c rep s

/-- Splitting a separator-free string yields one chunk. -/
theorem pySplitChar_no_sep (c : Char) (s : List Char) (h : c ∉ s) :
    pySplitChar c s = [s] := by
  induction s with
  | nil => rfl
  | cons x rest ih =>
    have hx : ¬ x = c := fun hx => h (hx ▸ List.mem_cons_self x rest)
    have hrest : c ∉ rest := fun hc => h (List.mem_cons_of_mem x hc)
    rw [pySplitChar]
    simp only [hx, if_false, ih hrest]

/-- Splitting past a leading separator-free chunk. -/
theorem pySplitChar_append_sep (c : Char) (x t : List Char) (hx : c ∉ x) :
    pySplitChar c (x ++ c :: t) = x :: pySplitChar c t := by
  induction x with
  | nil => simp [pySplitChar]
  | cons a x' ih =>
    have ha : ¬ a = c := fun h => hx (h ▸ List.mem_cons_self a x')
    have hx' : c ∉ x' := fun h => hx (List.mem_cons_of_mem a h)
    rw [List.cons_append, pySplitChar]
    simp only [ha, if_false, ih hx']

/-- A split never returns the empty chunk list. -/
theorem pySplitChar_ne_nil (c : Char) (s : List Char) :
    pySplitChar c s ≠ [] := by
  cases s with
  | nil => simp [pySplitChar]
  | cons x rest =>
    rw [pySplitChar]
    split
    · simp
    · cases h : pySplitChar c rest <;> simp

/-- Splitting on the separator inverts joining with it, for non-empty
chunk lists of separator-free chunks. -/
theorem pySplitChar_joinSep (c : Char) (lines : List (List Char))
    (hne : lines ≠ []) (h : ∀ l ∈ lines, c ∉ l) :
    pySplitChar c (joinSep [c] lines) = lines := by
  induction lines with
  | nil => exact absurd rfl hne
  | cons x rest ih =>
    cases rest with
    | nil =>
      rw [joinSep]
      exact pySplitChar_no_sep c x (h x (List.mem_cons_self x []))
    | cons y rest' =>
      rw [joinSep, List.append_assoc, List.singleton_append,
          pySplitChar_append_sep c x _ (h x (List.mem_cons_self x _))]
      rw [ih (by simp) (fun l hl => h l (List.mem_cons_of_mem x hl))]

/-- Character-wise replacement is the identity on strings free of the
replaced character. -/
theorem flatMap_single_id (c : Char) (rep : List Char) (s : List Char)
    (h : c ∉ s) :
    s.flatMap (fun x => if x = c then rep else [x]) = s := by
  induction s with
  | nil => rfl
  | cons x rest ih =>
    have hx : ¬ x = c := fun hx => h (hx ▸ List.mem_cons_self x rest)
    have hrest : c ∉ rest := fun hc => h (List.mem_cons_of_mem x hc)
    simp [hx, ih hrest]

/-- Replacing the separator in a joined string replaces each
separator occurrence, leaving the chunks intact. -/
theorem pyReplace_joinSep (c : Char) (rep : List Char)
    (lines : List (List Char)) (h : ∀ l ∈ lines, c ∉ l) :
    pyReplace [c] rep (joinSep [c] lines) = joinSep rep lines := by
  rw [pyReplace_single]
  induction lines with
  | nil => rfl
  | cons x rest ih =>
    cases rest with
    | nil =>
      rw [joinSep, joinSep]
      exact flatMap_single_id c rep x (h x (List.mem_cons_self x []))
    | cons y rest' =>
      rw [joinSep, joinSep]
      rw [List.flatMap_append, List.flatMap_append]
      rw [flatMap_single_id c rep x (h x (List.mem_cons_self x _)),
          ih (fun l hl => h l (List.mem_cons_of_mem x hl))]
      simp

/-- A character of a join comes from the separator or from a chunk. -/
theorem mem_joinSep {ch : Char} {sep : List Char} {ls : List (List Char)}
    (h : ch ∈ joinSep sep ls) : ch ∈ sep ∨ ∃ l ∈ ls, ch ∈ l := by
  induction ls with
  | nil => simp [joinSep] at h
  | cons x rest ih =>
    cases rest with
    | nil =>
      rw [joinSep] at h
      exact Or.inr ⟨x, List.mem_cons_self x [], h⟩
    | cons y rest' =>
      rw [joinSep] at h
      rcases List.mem_append.mp h with h1 | h2
      · rcases List.mem_append.mp h1 with h3 | h4
        · exact Or.inr ⟨x, List.mem_cons_self x _, h3⟩
        · exact Or.inl h4
      · rcases ih h2 with h3 | ⟨l, hl, hch⟩
        · exact Or.inl h3
        · exact Or.inr ⟨l, List.mem_cons_of_mem x hl, hch⟩

/-- A character of a split chunk is a character of the split string. -/
theorem mem_of_mem_pySplitChar {c ch : Char} :
    ∀ {s chunk : List Char}, chunk ∈ pySplitChar c s → ch ∈ chunk → ch ∈ s := by
  intro s
  induction s with
  | nil =>
    intro chunk hchunk hch
    simp [pySplitChar] at hchunk
    subst hchunk
    simp at hch
  | cons x rest ih =>
    intro chunk hchunk hch
    rw [pySplitChar] at hchunk
    by_cases hx : x = c
    · rw [if_pos hx] at hchunk
      rcases List.mem_cons.mp hchunk with h1 | h1
      · subst h1; simp at hch
      · exact List.mem_cons_of_mem x (ih h1 hch)
    · rw [if_neg hx] at hchunk
      cases hsp : pySplitChar c rest with
      | nil => exact absurd hsp (pySplitChar_ne_nil c rest)
      | cons g gs =>
        rw [hsp] at hchunk
        rcases List.mem_cons.mp hchunk with h1 | h1
        · subst h1
          rcases List.mem_cons.mp hch with h2 | h2
          · exact h2 ▸ List.mem_cons_self x rest
          · exact List.mem_cons_of_mem x
              (ih (hsp ▸ List.mem_cons_self g gs) h2)
        · exact List.mem_cons_of_mem x
            (ih (hsp ▸ List.mem_cons_of_mem g h1) hch)

/-- A character of a single-character replacement comes from the
replacement string or the original. -/
theorem mem_pyReplace_single {c ch : Char} {rep s : List Char}
    (h : ch ∈ pyReplace [c] rep s) : ch ∈ rep ∨ ch ∈ s := by
  rw [pyReplace_single] at h
  rcases List.mem_flatMap.mp h with ⟨x, hx, hch⟩
  by_cases hxc : x = c
  · rw [if_pos hxc] at hch
    exact Or.inl hch
  · rw [if_neg hxc] at hch
    simp at hch
    exact Or.inr (hch ▸ hx)

/-- CSV quoting introduces no newline into a newline-free line. -/
theorem quote_line_no_newline (line : List Char) (h : '\n' ∉ line) :
    '\n' ∉ quote_line csvOpts line := by
  rw [quote_line]
  split
  · exact h
  · intro hmem
    rcases mem_joinSep hmem with h1 | ⟨ql, hql, hch⟩
    · simp [csvOpts] at h1
    · rcases List.mem_map.mp hql with ⟨chunk, hchunk, hq⟩
      subst hq
      rw [quote_field] at hch
      rcases List.mem_append.mp hch with h2 | h2
      · rcases List.mem_append.mp h2 with h3 | h3
        · simp [csvOpts] at h3
        · rcases mem_pyReplace_single h3 with h4 | h4
          · simp [csvOpts] at h4
          · exact h (mem_of_mem_pySplitChar hchunk h4)
      · simp [csvOpts] at h2

/-- C5: In the CSV format, post-processing encloses every
tab-separated field of every non-empty line in double quotes with each
embedded double quote doubled, joins the quoted fields with commas,
and the final newline-conversion step replaces every logical newline
with CRLF; in the TSV format, no quoting or quote replacement is
applied and the text is returned — with fields still tab-separated —
unchanged. -/
theorem claim5_csv_tsv_postprocess (lines : List (List Char))
    (hne : lines ≠ []) (h : ∀ l ∈ lines, '\n' ∉ l) :
    delimitedPipeline csvOpts (joinSep ['\n'] lines)
      = joinSep ['\r', '\n'] (lines.map (fun line =>
          if line = [] then []
          else joinSep [','] ((pySplitChar '\t' line).map (fun f =>
            '\"' :: (f.flatMap (fun ch =>
              if ch = '\"' then ['\"', '\"'] else [ch])) ++ ['\"']))))
    ∧ ∀ text, delimitedPipeline tsvOpts text = text := by
  constructor
  · rw [delimitedPipeline, delimitedPostprocess,
        if_pos (by decide : csvOpts.quote ≠ [])]
    rw [pySplitChar_joinSep '\n' lines hne h]
    rw [convert_newlines, if_pos (by decide : csvOpts.newline ≠ ['\n'])]
    have hq : ∀ l ∈ lines.map (quote_line csvOpts), '\n' ∉ l := by
      intro l hl
      rcases List.mem_map.mp hl with ⟨line, hline, hq⟩
      exact hq ▸ quote_line_no_newline line (h line hline)
    rw [show csvOpts.newline = ['\r', '\n'] from rfl]
    rw [pyReplace_joinSep '\n' ['\r', '\n'] _ hq]
    congr 1
    refine List.map_congr_left (fun line hline => ?_)
    rw [quote_line]
    split
    · rename_i hempty
      exact hempty
    · rw [show csvOpts.delimiter = [','] from rfl]
      congr 1
      refine List.map_congr_left (fun f hf => ?_)
      rw [quote_field, show csvOpts.quote = ['\"'] from rfl,
          show csvOpts.replace_quote = ['\"', '\"'] from rfl,
          pyReplace_single]
      rfl
  · intro text
    rw [delimitedPipeline, delimitedPostprocess, convert_newlines]
    simp [tsvOpts]

/-- Witness for C5: the field value `He said "hi"` becomes
`"He said ""hi"""` in CSV, fields are comma-joined and lines
CRLF-terminated; the empty line stays unquoted. -/
theorem claim5_witness :
    delimitedPipeline csvOpts
        (joinSep ['\n'] [("He said \"hi\"\tx").data, []])
      = ("\"He said \"\"hi\"\"\",\"x\"\r\n").data :=
  ((claim5_csv_tsv_postprocess [("He said \"hi\"\tx").data, []]
      (by decide) (by decide)).1).trans (by decide)

end Korpexport
